import Mathlib

/-
Verification of the unibilium safe terminal-capability access layer.

The Rust sources are shallowly embedded as Lean definitions:

* The native `unibi_term` handle (an external collaborator, reached only
  through the `unibilium_sys` query functions) is modelled as a structure
  `Term` whose fields are the observable results of those query functions
  at a given moment.  Each Rust accessor (`Boolean`, `Numeric`, `String`,
  and their extended counterparts) is a structure holding its key together
  with the borrowed handle state.
* Rust text (`&str` / `std::string::String`) is modelled as its byte
  sequence, `List Nat`; all bytes produced by the escaping helper are
  ASCII, so the `String::from_utf8` revalidation step in `escape_string`
  is the identity at this level of abstraction.
* Fallible operations return `Option`/`Except`; a diverging lookup (a
  failed `expect`, or a null name pointer) is modelled as `none`.
-/

namespace Unibilium

/-- Observable state of the native terminal-description handle, as reached
through the `unibilium_sys` query functions used by `src/term.rs`,
`src/boolean.rs`, `src/numeric.rs` and `src/string.rs`.  Field names follow
the corresponding `unibi_*` query functions; the handle argument of each C
function is the structure itself. -/
structure Term where
  get_bool : Nat → Int
  get_num : Nat → Int
  get_str : Nat → Option (List Nat)
  count_ext_bool : Nat
  count_ext_num : Nat
  count_ext_str : Nat
  get_ext_bool : Nat → Int
  get_ext_num : Nat → Int
  get_ext_str : Nat → Option (List Nat)
  get_ext_bool_name : Nat → Option (List Nat)
  get_ext_num_name : Nat → Option (List Nat)
  get_ext_str_name : Nat → Option (List Nat)

/-- Error taxonomy of `src/error.rs`: `NotFound` carries the offending
terminal name (a byte string), `NotUnicode` reports an undecodable source
value. -/
inductive TermError where
  | NotFound (name : List Nat)
  | NotUnicode
deriving DecidableEq

/-- `TermError::from_name` of `src/error.rs`. -/
def TermError.from_name (name : List Nat) : TermError :=
  TermError.NotFound name

/-- Result of reading the `TERM` environment variable, mirroring
`std::env::var`: a decoded value, absence, or an undecodable raw value. -/
inductive VarResult where
  | ok (value : List Nat)
  | notPresent
  | notUnicode

/-- `TermError::from_term_var` of `src/error.rs`: classify the current
`TERM` value into an error. -/
def TermError.from_term_var : VarResult → TermError
  | .ok v => TermError.from_name v
  | .notPresent => TermError.from_name []
  | .notUnicode => TermError.NotUnicode

/-- `Term::from_env` of `src/term.rs`: `unibi_from_env()` is invoked first
(its result is the `native` argument); only when it returns a null handle
is the `TERM` variable consulted to build the error value. -/
def Term.from_env (native : Option Term) (tv : VarResult) : Except TermError Term :=
  match native with
  | some t => Except.ok t
  | none => Except.error (TermError.from_term_var tv)

/-- `Term::from_term_name` of `src/term.rs`: `CString::new` fails exactly
when the name contains an interior null byte, in which case the native
resolver is never called; otherwise `unibi_from_term` (the `resolve`
argument) decides between success and `NotFound`. -/
def Term.from_term_name (resolve : List Nat → Option Term) (name : List Nat) :
    Except TermError Term :=
  if 0 ∈ name then Except.error (TermError.from_name name)
  else
    match resolve name with
    | none => Except.error (TermError.from_name name)
    | some t => Except.ok t

/-- The half-open iteration range `a..b` of a Rust `for` loop. -/
def rustRange (a b : Nat) : List Nat :=
  List.range' a (b - a)

/-- `Boolean` of `src/boolean.rs`: a fixed boolean capability identifier
borrowing the handle. -/
structure Boolean where
  boolean : Nat
  term : Term

/-- `Boolean::supported` of `src/boolean.rs`: true exactly when
`unibi_get_bool` returns a value strictly greater than zero. -/
def Boolean.supported (b : Boolean) : Bool :=
  decide (0 < b.term.get_bool b.boolean)

/-- `ExtBoolean` of `src/boolean.rs`. -/
structure ExtBoolean where
  index : Nat
  term : Term

/-- `ExtBoolean::supported` of `src/boolean.rs`. -/
def ExtBoolean.supported (e : ExtBoolean) : Bool :=
  decide (0 < e.term.get_ext_bool e.index)

/-- `Numeric` of `src/numeric.rs`. -/
structure Numeric where
  numeric : Nat
  term : Term

/-- `Numeric::value` of `src/numeric.rs`: the raw `unibi_get_num` result,
sentinel values included. -/
def Numeric.value (n : Numeric) : Int :=
  n.term.get_num n.numeric

/-- `ExtNumeric` of `src/numeric.rs`. -/
structure ExtNumeric where
  index : Nat
  term : Term

/-- `ExtNumeric::value` of `src/numeric.rs`. -/
def ExtNumeric.value (n : ExtNumeric) : Int :=
  n.term.get_ext_num n.index

/-- `String` of `src/string.rs` (named `StringCap` here to avoid clashing
with the Lean `String` type). -/
structure StringCap where
  string : Nat
  term : Term

/-- `String::value` of `src/string.rs`: `none` models the null pointer
returned by `unibi_get_str` for an unset capability. -/
def StringCap.value (s : StringCap) : Option (List Nat) :=
  s.term.get_str s.string

/-- `ExtString` of `src/string.rs`. -/
structure ExtString where
  index : Nat
  term : Term

/-- `ExtString::value` of `src/string.rs`. -/
def ExtString.value (e : ExtString) : Option (List Nat) :=
  e.term.get_ext_str e.index

/-- The low nibble to ASCII hex digit map of `std::ascii` (`hexify`). -/
def hexDigit (b : Nat) : Nat :=
  if b ≤ 9 then 48 + b else 97 + (b - 10)

/-- `std::ascii::escape_default`, byte level: tab, carriage return, line
feed, backslash, single and double quote get two-byte backslash escapes,
printable ASCII (0x20 to 0x7e) passes through, everything else becomes the
four bytes of a lowercase hex escape. -/
def escape_default (c : Nat) : List Nat :=
  if c = 9 then [92, 116]
  else if c = 13 then [92, 114]
  else if c = 10 then [92, 110]
  else if c = 92 then [92, 92]
  else if c = 39 then [92, 39]
  else if c = 34 then [92, 34]
  else if 32 ≤ c ∧ c ≤ 126 then [c]
  else [92, 120, hexDigit (c / 16), hexDigit (c % 16)]

/-- The four escaped bytes of the ESC character, the pattern of the final
`replace` call in `escape_string`. -/
def escPat : List Nat := [92, 120, 49, 98]

/-- The caret notation the pattern is replaced with. -/
def caretSeq : List Nat := [94, 91]

/-- Fuelled core of Rust `str::replace("\x1b", "^[")`: leftmost
non-overlapping occurrences of `escPat` are replaced by `caretSeq`.  The
fuel argument makes the recursion structural; `replace_x1b` supplies
enough fuel for the whole input. -/
def replaceFuel : Nat → List Nat → List Nat
  | _, [] => []
  | 0, l => l
  | fuel + 1, c :: rest =>
    if c = 92 ∧ rest.take 3 = [120, 49, 98] then
      94 :: 91 :: replaceFuel fuel (rest.drop 3)
    else
      c :: replaceFuel fuel rest

/-- `str::replace("\x1b", "^[")` as used by `escape_string`. -/
def replace_x1b (l : List Nat) : List Nat :=
  replaceFuel l.length l

/-- Body of `escape_string` of `src/string.rs` on a present value: escape
every byte with `escape_default`, flatten, then rewrite the ESC escape to
caret notation. -/
def escapeBody (s : List Nat) : List Nat :=
  replace_x1b ((s.map escape_default).flatten)

/-- `escape_string` of `src/string.rs`: absent input maps to absent
output, present input is escaped by `escapeBody`. -/
def escape_string (s : Option (List Nat)) : Option (List Nat) :=
  s.map escapeBody

/-- `String::escaped_value` of `src/string.rs`. -/
def StringCap.escaped_value (s : StringCap) : Option (List Nat) :=
  escape_string s.value

/-- `ExtString::escaped_value` of `src/string.rs`. -/
def ExtString.escaped_value (e : ExtString) : Option (List Nat) :=
  escape_string e.value

/-- `Term::booleans` of `src/term.rs`: one `Boolean` accessor for each
identifier of the loop `(begin+1)..end`, in loop order.  The sentinel
values of the `unibi_boolean` enumeration live in the external
`unibilium_sys` crate, so they appear here as the parameters `bb`
(`unibi_boolean_begin_`) and `be` (`unibi_boolean_end_`). -/
def Term.booleans (bb be : Nat) (t : Term) : List Boolean :=
  (rustRange (bb + 1) be).map fun i => { boolean := i, term := t }

/-- `Term::numerics` of `src/term.rs`, with the `unibi_numeric` sentinels
as parameters. -/
def Term.numerics (nb ne : Nat) (t : Term) : List Numeric :=
  (rustRange (nb + 1) ne).map fun i => { numeric := i, term := t }

/-- `Term::strings` of `src/term.rs`, with the `unibi_string` sentinels as
parameters. -/
def Term.strings (sb se : Nat) (t : Term) : List StringCap :=
  (rustRange (sb + 1) se).map fun i => { string := i, term := t }

/-- `Term::ext_booleans` of `src/term.rs`: the extended-boolean count is
read from the handle at the call, then one accessor per index `0..count`
is produced in loop order. -/
def Term.ext_booleans (t : Term) : List ExtBoolean :=
  (rustRange 0 t.count_ext_bool).map fun i => { index := i, term := t }

/-- `Term::ext_numerics` of `src/term.rs`. -/
def Term.ext_numerics (t : Term) : List ExtNumeric :=
  (rustRange 0 t.count_ext_num).map fun i => { index := i, term := t }

/-- `Term::ext_strings` of `src/term.rs`. -/
def Term.ext_strings (t : Term) : List ExtString :=
  (rustRange 0 t.count_ext_str).map fun i => { index := i, term := t }

/-- The bytes of the literal `": "` separating a capability name from its
value in every `Display` implementation. -/
def colonSpace : List Nat := [58, 32]

/-- The bytes of the literal `"NULL"` printed for an absent string
capability value. -/
def nullBytes : List Nat := [78, 85, 76, 76]

/-- The bytes Rust's `Display for bool` produces. -/
def boolBytes : Bool → List Nat
  | true => [116, 114, 117, 101]
  | false => [102, 97, 108, 115, 101]

/-- The bytes Rust's `Display for i32` produces, via the decimal rendering
of the integer. -/
def intBytes (i : Int) : List Nat :=
  (toString i).toList.map Char.toNat

/-- `Boolean::name` of `src/boolean.rs`: a lookup in the static
`unibi_name_bool` table (modelled as the argument `tbl`, a per-library
constant); `none` models the panic on a null pointer. -/
def Boolean.name (tbl : Nat → Option (List Nat)) (b : Boolean) : Option (List Nat) :=
  tbl b.boolean

/-- `Numeric::name` of `src/numeric.rs` over the static `unibi_name_num`
table. -/
def Numeric.name (tbl : Nat → Option (List Nat)) (n : Numeric) : Option (List Nat) :=
  tbl n.numeric

/-- `String::name` of `src/string.rs` over the static `unibi_name_str`
table. -/
def StringCap.name (tbl : Nat → Option (List Nat)) (s : StringCap) : Option (List Nat) :=
  tbl s.string

/-- `ExtBoolean::name` of `src/boolean.rs`: `unibi_get_ext_bool_name` on
the handle. -/
def ExtBoolean.name (e : ExtBoolean) : Option (List Nat) :=
  e.term.get_ext_bool_name e.index

/-- `ExtNumeric::name` of `src/numeric.rs`. -/
def ExtNumeric.name (n : ExtNumeric) : Option (List Nat) :=
  n.term.get_ext_num_name n.index

/-- `ExtString::name` of `src/string.rs`. -/
def ExtString.name (e : ExtString) : Option (List Nat) :=
  e.term.get_ext_str_name e.index

/-- `Display for Boolean` of `src/boolean.rs`: `"<name>: <supported>"`;
`none` models the divergence of a failed name lookup. -/
def Boolean.display (tbl : Nat → Option (List Nat)) (b : Boolean) : Option (List Nat) :=
  (Boolean.name tbl b).map fun nm => nm ++ colonSpace ++ boolBytes (Boolean.supported b)

/-- `Display for ExtBoolean` of `src/boolean.rs`. -/
def ExtBoolean.display (e : ExtBoolean) : Option (List Nat) :=
  (ExtBoolean.name e).map fun nm => nm ++ colonSpace ++ boolBytes (ExtBoolean.supported e)

/-- `Display for Numeric` of `src/numeric.rs`: `"<name>: <value>"`. -/
def Numeric.display (tbl : Nat → Option (List Nat)) (n : Numeric) : Option (List Nat) :=
  (Numeric.name tbl n).map fun nm => nm ++ colonSpace ++ intBytes (Numeric.value n)

/-- `Display for ExtNumeric` of `src/numeric.rs`. -/
def ExtNumeric.display (n : ExtNumeric) : Option (List Nat) :=
  (ExtNumeric.name n).map fun nm => nm ++ colonSpace ++ intBytes (ExtNumeric.value n)

/-- `Display for String` of `src/string.rs`: `"<name>: <escaped value>"`,
with the literal `NULL` when `escaped_value` is absent. -/
def StringCap.display (tbl : Nat → Option (List Nat)) (s : StringCap) : Option (List Nat) :=
  (StringCap.name tbl s).map fun nm =>
    match StringCap.escaped_value s with
    | none => nm ++ colonSpace ++ nullBytes
    | some v => nm ++ colonSpace ++ v

/-- `Display for ExtString` of `src/string.rs`. -/
def ExtString.display (e : ExtString) : Option (List Nat) :=
  (ExtString.name e).map fun nm =>
    match ExtString.escaped_value e with
    | none => nm ++ colonSpace ++ nullBytes
    | some v => nm ++ colonSpace ++ v

/-- A handle state with no capabilities at all, used to instantiate the
universally quantified theorems below at a concrete input. -/
def dummyTerm : Term where
  get_bool _ := 0
  get_num _ := 0
  get_str _ := none
  count_ext_bool := 0
  count_ext_num := 0
  count_ext_str := 0
  get_ext_bool _ := 0
  get_ext_num _ := 0
  get_ext_str _ := none
  get_ext_bool_name _ := none
  get_ext_num_name _ := none
  get_ext_str_name _ := none

/-- A handle state carrying small concrete capability values, used to
instantiate theorems at a concrete input. -/
def sampleTerm : Term where
  get_bool _ := 1
  get_num _ := 7
  get_str _ := some [65]
  count_ext_bool := 2
  count_ext_num := 3
  count_ext_str := 0
  get_ext_bool _ := -1
  get_ext_num _ := 5
  get_ext_str _ := some [66]
  get_ext_bool_name _ := some [101]
  get_ext_num_name _ := some [102]
  get_ext_str_name _ := some [103]

/-- A resolver that never finds a terminal, used to instantiate the
resolution theorems at a concrete input. -/
def resolveNone : List Nat → Option Term := fun _ => none

/-! Facts about the replacement pass of `escape_string`. -/

lemma replaceFuel_zero (l : List Nat) : replaceFuel 0 l = l := by
  cases l <;> rfl

lemma replaceFuel_nil (fuel : Nat) : replaceFuel fuel [] = [] := by
  cases fuel <;> rfl

lemma replaceFuel_cons (fuel : Nat) (c : Nat) (rest : List Nat) :
    replaceFuel (fuel + 1) (c :: rest) =
      if c = 92 ∧ rest.take 3 = [120, 49, 98] then
        94 :: 91 :: replaceFuel fuel (rest.drop 3)
      else
        c :: replaceFuel fuel rest := rfl

/-- The guard of `replaceFuel` fires exactly when the input starts with
the escaped ESC sequence. -/
lemma replaceFuel_cond_iff (c : Nat) (rest : List Nat) :
    (c = 92 ∧ rest.take 3 = [120, 49, 98]) ↔ escPat <+: c :: rest := by
  show _ ↔ 92 :: [120, 49, 98] <+: c :: rest
  rw [List.cons_prefix_cons, List.prefix_iff_eq_take]
  constructor
  · rintro ⟨h1, h2⟩
    exact ⟨h1.symm, h2.symm⟩
  · rintro ⟨h1, h2⟩
    exact ⟨h1.symm, h2.symm⟩

/-- If the output of `replaceFuel` starts with the byte `98`, so did its
input. -/
lemma pfx98_lift (fuel : Nat) (l : List Nat) (h : [98] <+: replaceFuel fuel l) :
    [98] <+: l := by
  cases fuel with
  | zero => rwa [replaceFuel_zero] at h
  | succ f =>
    cases l with
    | nil =>
      rw [replaceFuel_nil] at h
      simp at h
    | cons c rest =>
      rw [replaceFuel_cons] at h
      by_cases hc : c = 92 ∧ rest.take 3 = [120, 49, 98]
      · rw [if_pos hc] at h
        exact absurd (List.cons_prefix_cons.mp h).1 (by decide)
      · rw [if_neg hc] at h
        exact List.cons_prefix_cons.mpr ⟨(List.cons_prefix_cons.mp h).1, List.nil_prefix⟩

/-- If the output of `replaceFuel` starts with `49 :: 98`, so did its
input. -/
lemma pfx4998_lift (fuel : Nat) (l : List Nat) (h : [49, 98] <+: replaceFuel fuel l) :
    [49, 98] <+: l := by
  cases fuel with
  | zero => rwa [replaceFuel_zero] at h
  | succ f =>
    cases l with
    | nil =>
      rw [replaceFuel_nil] at h
      simp at h
    | cons c rest =>
      rw [replaceFuel_cons] at h
      by_cases hc : c = 92 ∧ rest.take 3 = [120, 49, 98]
      · rw [if_pos hc] at h
        exact absurd (List.cons_prefix_cons.mp h).1 (by decide)
      · rw [if_neg hc] at h
        obtain ⟨h1, h2⟩ := List.cons_prefix_cons.mp h
        exact List.cons_prefix_cons.mpr ⟨h1, pfx98_lift f rest h2⟩

/-- If the output of `replaceFuel` starts with `120 :: 49 :: 98`, so did
its input. -/
lemma pfx1204998_lift (fuel : Nat) (l : List Nat)
    (h : [120, 49, 98] <+: replaceFuel fuel l) : [120, 49, 98] <+: l := by
  cases fuel with
  | zero => rwa [replaceFuel_zero] at h
  | succ f =>
    cases l with
    | nil =>
      rw [replaceFuel_nil] at h
      simp at h
    | cons c rest =>
      rw [replaceFuel_cons] at h
      by_cases hc : c = 92 ∧ rest.take 3 = [120, 49, 98]
      · rw [if_pos hc] at h
        exact absurd (List.cons_prefix_cons.mp h).1 (by decide)
      · rw [if_neg hc] at h
        obtain ⟨h1, h2⟩ := List.cons_prefix_cons.mp h
        exact List.cons_prefix_cons.mpr ⟨h1, pfx4998_lift f rest h2⟩

/-- With sufficient fuel, the output of `replaceFuel` never contains the
escaped ESC sequence: the replacement removes every occurrence and the
caret notation cannot recombine with the context into a new one. -/
lemma not_escPat_infix_replaceFuel (fuel : Nat) :
    ∀ l : List Nat, l.length ≤ fuel → ¬ escPat <:+: replaceFuel fuel l := by
  induction fuel with
  | zero =>
    intro l hf h
    obtain rfl : l = [] := List.eq_nil_of_length_eq_zero (Nat.le_zero.mp hf)
    rw [replaceFuel_nil] at h
    simp [escPat] at h
  | succ f ih =>
    intro l hf h
    match l with
    | [] =>
      rw [replaceFuel_nil] at h
      simp [escPat] at h
    | c :: rest =>
      rw [replaceFuel_cons] at h
      by_cases hc : c = 92 ∧ rest.take 3 = [120, 49, 98]
      · rw [if_pos hc] at h
        rcases List.infix_cons_iff.mp h with hp | h2
        · exact absurd (List.cons_prefix_cons.mp hp).1 (by decide)
        rcases List.infix_cons_iff.mp h2 with hp | h3
        · exact absurd (List.cons_prefix_cons.mp hp).1 (by decide)
        · refine ih (rest.drop 3) ?_ h3
          have := List.length_drop 3 rest
          simp only [List.length_cons] at hf
          omega
      · rw [if_neg hc] at h
        rcases List.infix_cons_iff.mp h with hp | h3
        · obtain ⟨h92, hr⟩ := List.cons_prefix_cons.mp hp
          have hlift := pfx1204998_lift f rest hr
          rw [List.prefix_iff_eq_take] at hlift
          exact hc ⟨h92.symm, hlift.symm⟩
        · refine ih rest ?_ h3
          simp only [List.length_cons] at hf
          omega

/-- With sufficient fuel, an occurrence of the escaped ESC sequence in the
input guarantees a caret sequence in the output of `replaceFuel`. -/
lemma caret_infix_replaceFuel (fuel : Nat) :
    ∀ l : List Nat, l.length ≤ fuel → escPat <:+: l →
      caretSeq <:+: replaceFuel fuel l := by
  induction fuel with
  | zero =>
    intro l hf h
    obtain rfl : l = [] := List.eq_nil_of_length_eq_zero (Nat.le_zero.mp hf)
    simp [escPat] at h
  | succ f ih =>
    intro l hf h
    match l with
    | [] => simp [escPat] at h
    | c :: rest =>
      rw [replaceFuel_cons]
      by_cases hc : c = 92 ∧ rest.take 3 = [120, 49, 98]
      · rw [if_pos hc]
        exact ⟨[], replaceFuel f (rest.drop 3), rfl⟩
      · rw [if_neg hc]
        rcases List.infix_cons_iff.mp h with hp | h3
        · exact absurd ((replaceFuel_cond_iff c rest).mpr hp) hc
        · simp only [List.length_cons] at hf
          exact List.infix_cons (ih rest (by omega) h3)

/-- A raw input byte `27` (ESC) puts the escaped ESC sequence into the
concatenation of the per-byte escapes. -/
lemma escPat_infix_escaped (s : List Nat) (h : 27 ∈ s) :
    escPat <:+: (s.map escape_default).flatten := by
  have he : escape_default 27 = escPat := by decide
  exact he ▸ List.infix_of_mem_flatten (List.mem_map_of_mem escape_default h)

/-- C4: for every raw capability text that contains the ESC byte (27),
the escaping transform yields a present output that contains the literal
two-byte sequence `^[` (`caretSeq`) and never the four-byte sequence
`\x1b` (`escPat`). -/
theorem c4_esc_escapes_to_caret (s : List Nat) (h : 27 ∈ s) :
    escape_string (some s) = some (escapeBody s) ∧
    caretSeq <:+: escapeBody s ∧ ¬ escPat <:+: escapeBody s := by
  refine ⟨rfl, ?_, ?_⟩
  · show caretSeq <:+: replaceFuel _ _
    exact caret_infix_replaceFuel _ _ le_rfl (escPat_infix_escaped s h)
  · show ¬ escPat <:+: replaceFuel _ _
    exact not_escPat_infix_replaceFuel _ _ le_rfl

/-- Witness for C4 at the one-byte input consisting of ESC. -/
theorem c4_esc_escapes_to_caret_witness :
    (27 : Nat) ∈ [27] ∧
      (escape_string (some [27]) = some (escapeBody [27]) ∧
        caretSeq <:+: escapeBody [27] ∧ ¬ escPat <:+: escapeBody [27]) :=
  ⟨by decide, c4_esc_escapes_to_caret [27] (by decide)⟩

/-- C5 counterexample: the backslash byte (92) is printable ASCII yet does
not pass through the escaping transform unchanged — it doubles. -/
theorem c5_backslash_not_passed_through :
    (32 ≤ 92 ∧ 92 ≤ 126) ∧
      escape_string (some [92]) = some [92, 92] ∧
      escape_string (some [92]) ≠ some [92] := by decide

set_option maxRecDepth 4096 in
/-- C5 as amended: printable ASCII passes through unchanged except for
backslash (92), single quote (39) and double quote (34), which become
two-byte backslash escapes; every control or non-printable byte becomes a
backslash-escape sequence (first byte 92, length at least two); the ESC
byte's caret override is the only exception to backslash escaping. -/
theorem c5_escape_classification : ∀ c : Nat, c < 256 →
    ((32 ≤ c ∧ c ≤ 126 ∧ c ≠ 92 ∧ c ≠ 39 ∧ c ≠ 34) →
        escape_string (some [c]) = some [c]) ∧
    ((c = 92 ∨ c = 39 ∨ c = 34) → escape_string (some [c]) = some [92, c]) ∧
    ((c < 32 ∨ 126 < c) → c ≠ 27 →
        escape_string (some [c]) = some (escape_default c) ∧
        (escape_default c).take 1 = [92] ∧ 2 ≤ (escape_default c).length) ∧
    (c = 27 → escape_string (some [c]) = some caretSeq) := by
  intro c hc
  refine ⟨?_, ?_, ?_, ?_⟩ <;> revert c <;> decide

/-- Witness for the amended C5 at the printable byte 65. -/
theorem c5_escape_classification_witness :
    65 < 256 ∧ escape_string (some [65]) = some [65] :=
  ⟨by decide, (c5_escape_classification 65 (by decide)).1 (by decide)⟩

/-- C10: the escaping transform is not injective — the one-byte ESC text
and the two-byte literal `^[` text escape to the same output. -/
theorem c10_escape_not_injective :
    escape_string (some [27]) = some [94, 91] ∧
    escape_string (some [94, 91]) = some [94, 91] ∧
    ([27] : List Nat) ≠ [94, 91] := by decide

/-- C9: a Boolean (and ExtBoolean) accessor reports `supported` exactly
when the native query returns a strictly positive integer; zero or any
negative value (absent or cancelled sentinels included) yields `false`. -/
theorem c9_supported_iff_positive (b : Boolean) (e : ExtBoolean) :
    (Boolean.supported b = true ↔ 0 < b.term.get_bool b.boolean) ∧
    (b.term.get_bool b.boolean ≤ 0 → Boolean.supported b = false) ∧
    (ExtBoolean.supported e = true ↔ 0 < e.term.get_ext_bool e.index) ∧
    (e.term.get_ext_bool e.index ≤ 0 → ExtBoolean.supported e = false) := by
  refine ⟨by simp [Boolean.supported], ?_, by simp [ExtBoolean.supported], ?_⟩
  · intro h
    simp only [Boolean.supported, decide_eq_false_iff_not]
    omega
  · intro h
    simp only [ExtBoolean.supported, decide_eq_false_iff_not]
    omega

/-- Witness for C9: a zero result and a negative result both yield
`false`. -/
theorem c9_supported_iff_positive_witness :
    dummyTerm.get_bool 0 ≤ 0 ∧ Boolean.supported ⟨0, dummyTerm⟩ = false ∧
    sampleTerm.get_ext_bool 0 ≤ 0 ∧ ExtBoolean.supported ⟨0, sampleTerm⟩ = false :=
  ⟨by decide,
   (c9_supported_iff_positive ⟨0, dummyTerm⟩ ⟨0, sampleTerm⟩).2.1 (by decide),
   by decide,
   (c9_supported_iff_positive ⟨0, dummyTerm⟩ ⟨0, sampleTerm⟩).2.2.2 (by decide)⟩

/-- C7: for String and ExtString accessors, `escaped_value` is absent
exactly when `value` is absent, and a present raw value maps to the
escaping transform of that value. -/
theorem c7_escaped_value_absent_iff (s : StringCap) (e : ExtString) :
    (StringCap.escaped_value s = none ↔ StringCap.value s = none) ∧
    (∀ v, StringCap.value s = some v →
        StringCap.escaped_value s = some (escapeBody v)) ∧
    (ExtString.escaped_value e = none ↔ ExtString.value e = none) ∧
    (∀ v, ExtString.value e = some v →
        ExtString.escaped_value e = some (escapeBody v)) := by
  refine ⟨?_, ?_, ?_, ?_⟩
  · simp [StringCap.escaped_value, escape_string]
  · intro v hv
    simp [StringCap.escaped_value, escape_string, hv]
  · simp [ExtString.escaped_value, escape_string]
  · intro v hv
    simp [ExtString.escaped_value, escape_string, hv]

/-- Witness for C7: a present and an absent raw value, fixed and
extended. -/
theorem c7_escaped_value_absent_iff_witness :
    StringCap.value ⟨0, sampleTerm⟩ = some [65] ∧
    StringCap.escaped_value ⟨0, sampleTerm⟩ = some (escapeBody [65]) ∧
    StringCap.value ⟨0, dummyTerm⟩ = none ∧
    StringCap.escaped_value ⟨0, dummyTerm⟩ = none ∧
    ExtString.value ⟨0, sampleTerm⟩ = some [66] ∧
    ExtString.escaped_value ⟨0, sampleTerm⟩ = some (escapeBody [66]) :=
  ⟨rfl,
   (c7_escaped_value_absent_iff ⟨0, sampleTerm⟩ ⟨0, sampleTerm⟩).2.1 [65] rfl,
   rfl,
   (c7_escaped_value_absent_iff ⟨0, dummyTerm⟩ ⟨0, dummyTerm⟩).1.mpr rfl,
   rfl,
   (c7_escaped_value_absent_iff ⟨0, sampleTerm⟩ ⟨0, sampleTerm⟩).2.2.2 [66] rfl⟩

/-- Membership in a Rust loop range. -/
lemma mem_rustRange {i a b : Nat} : i ∈ rustRange a b ↔ a ≤ i ∧ i < b := by
  rw [rustRange, List.mem_range'_1]
  omega

/-- A Rust loop range is strictly ascending. -/
lemma pairwise_rustRange (a b : Nat) : (rustRange a b).Pairwise (· < ·) :=
  List.pairwise_lt_range' a (b - a)

/-- C1: `booleans()` yields one accessor per identifier of the range
`(begin+1)..end` (end exclusive), in strictly ascending identifier order,
all borrowing the same handle; the length is the enumeration size
(`end - begin`, the identifiers from the begin sentinel up to the
exclusive end sentinel) minus one, and repeated calls are equal. -/
theorem c1_booleans_enumeration (bb be : Nat) (t : Term) :
    ((Term.booleans bb be t).map Boolean.boolean = rustRange (bb + 1) be) ∧
    (∀ i : Nat, i ∈ (Term.booleans bb be t).map Boolean.boolean ↔
        bb + 1 ≤ i ∧ i < be) ∧
    ((Term.booleans bb be t).map Boolean.boolean).Pairwise (· < ·) ∧
    (∀ b ∈ Term.booleans bb be t, b.term = t) ∧
    (Term.booleans bb be t).length = (be - bb) - 1 ∧
    Term.booleans bb be t = Term.booleans bb be t := by
  have hmap : (Term.booleans bb be t).map Boolean.boolean = rustRange (bb + 1) be := by
    simp [Term.booleans, List.map_map, Function.comp_def]
  refine ⟨hmap, ?_, ?_, ?_, ?_, rfl⟩
  · intro i
    rw [hmap, mem_rustRange]
  · rw [hmap]
    exact pairwise_rustRange _ _
  · intro b hb
    rw [Term.booleans, List.mem_map] at hb
    obtain ⟨i, _, rfl⟩ := hb
    rfl
  · simp only [Term.booleans, rustRange, List.length_map, List.length_range']
    omega

/-- Witness for C1 at concrete sentinels 0 and 4: four accessors, one per
identifier 1, 2, 3. -/
theorem c1_booleans_enumeration_witness :
    (Term.booleans 0 4 dummyTerm).length = (4 - 0) - 1 :=
  (c1_booleans_enumeration 0 4 dummyTerm).2.2.2.2.1

/-- C2: a name containing an interior null byte makes `from_term_name`
return `NotFound` with exactly that name, independently of the resolver
(which is never invoked); a resolver returning no handle produces the
same error. -/
theorem c2_from_term_name_null_byte (resolve resolve2 : List Nat → Option Term)
    (name : List Nat) :
    (0 ∈ name →
        Term.from_term_name resolve name = Except.error (TermError.NotFound name) ∧
        Term.from_term_name resolve name = Term.from_term_name resolve2 name) ∧
    (resolve name = none →
        Term.from_term_name resolve name = Except.error (TermError.NotFound name)) := by
  constructor
  · intro h
    constructor <;> simp [Term.from_term_name, h, TermError.from_name]
  · intro h
    by_cases h0 : 0 ∈ name <;>
      simp [Term.from_term_name, h0, h, TermError.from_name]

/-- Witness for C2: a name with an embedded null, and an unknown name. -/
theorem c2_from_term_name_null_byte_witness :
    ((0 : Nat) ∈ [104, 0] ∧
      Term.from_term_name resolveNone [104, 0] =
        Except.error (TermError.NotFound [104, 0])) ∧
    (resolveNone [118] = none ∧
      Term.from_term_name resolveNone [118] =
        Except.error (TermError.NotFound [118])) :=
  ⟨⟨by decide,
    ((c2_from_term_name_null_byte resolveNone resolveNone [104, 0]).1 (by decide)).1⟩,
   ⟨rfl, (c2_from_term_name_null_byte resolveNone resolveNone [118]).2 rfl⟩⟩

/-- C3 counterexample: `from_env` invokes the native resolution first, so
when `unibi_from_env` returns a handle while the raw `TERM` value is not
decodable, the call succeeds instead of failing with `NotUnicode` — the
claimed "fails with NotUnicode exactly when TERM cannot be decoded, and
the resolution path is not consulted" is false on the code. -/
theorem c3_from_env_counterexample :
    Term.from_env (some dummyTerm) VarResult.notUnicode = Except.ok dummyTerm ∧
    Term.from_env (some dummyTerm) VarResult.notUnicode ≠
      Except.error TermError.NotUnicode := by
  constructor
  · rfl
  · intro h
    simp [Term.from_env] at h

/-- C3 as amended: `from_env` consults the native resolution
unconditionally; a returned handle means success regardless of `TERM`
decodability; only when no handle is returned is `TERM` inspected —
`NotUnicode` when its raw value cannot be decoded, `NotFound` with the
decoded name when it decodes, and `NotFound` of the empty name when it is
absent. -/
theorem c3_from_env_error_classification (native : Option Term) (tv : VarResult) :
    (∀ t, native = some t → Term.from_env native tv = Except.ok t) ∧
    (native = none → tv = VarResult.notUnicode →
        Term.from_env native tv = Except.error TermError.NotUnicode) ∧
    (native = none → ∀ v, tv = VarResult.ok v →
        Term.from_env native tv = Except.error (TermError.NotFound v)) ∧
    (native = none → tv = VarResult.notPresent →
        Term.from_env native tv = Except.error (TermError.NotFound [])) := by
  refine ⟨?_, ?_, ?_, ?_⟩
  · rintro t rfl
    rfl
  · rintro rfl rfl
    rfl
  · rintro rfl v rfl
    rfl
  · rintro rfl rfl
    rfl

/-- Witness for the amended C3 at each error shape. -/
theorem c3_from_env_error_classification_witness :
    Term.from_env none VarResult.notUnicode = Except.error TermError.NotUnicode ∧
    Term.from_env none (VarResult.ok [118]) = Except.error (TermError.NotFound [118]) ∧
    Term.from_env none VarResult.notPresent = Except.error (TermError.NotFound []) ∧
    Term.from_env (some sampleTerm) VarResult.notUnicode = Except.ok sampleTerm :=
  ⟨(c3_from_env_error_classification none VarResult.notUnicode).2.1 rfl rfl,
   (c3_from_env_error_classification none (VarResult.ok [118])).2.2.1 rfl [118] rfl,
   (c3_from_env_error_classification none VarResult.notPresent).2.2.2 rfl rfl,
   (c3_from_env_error_classification (some sampleTerm) VarResult.notUnicode).1
     sampleTerm rfl⟩

/-- C6: each `ext_*` call reads the count from the handle state at that
call and yields one accessor per index `0..count` in ascending index
order; a zero count yields the empty sequence. -/
theorem c6_ext_enumeration (t : Term) :
    ((Term.ext_booleans t).map ExtBoolean.index = rustRange 0 t.count_ext_bool) ∧
    (Term.ext_booleans t).length = t.count_ext_bool ∧
    (∀ i : Nat, i ∈ (Term.ext_booleans t).map ExtBoolean.index ↔
        i < t.count_ext_bool) ∧
    ((Term.ext_booleans t).map ExtBoolean.index).Pairwise (· < ·) ∧
    (t.count_ext_bool = 0 → Term.ext_booleans t = []) ∧
    ((Term.ext_numerics t).map ExtNumeric.index = rustRange 0 t.count_ext_num) ∧
    (Term.ext_numerics t).length = t.count_ext_num ∧
    (∀ i : Nat, i ∈ (Term.ext_numerics t).map ExtNumeric.index ↔
        i < t.count_ext_num) ∧
    ((Term.ext_numerics t).map ExtNumeric.index).Pairwise (· < ·) ∧
    (t.count_ext_num = 0 → Term.ext_numerics t = []) ∧
    ((Term.ext_strings t).map ExtString.index = rustRange 0 t.count_ext_str) ∧
    (Term.ext_strings t).length = t.count_ext_str ∧
    (∀ i : Nat, i ∈ (Term.ext_strings t).map ExtString.index ↔
        i < t.count_ext_str) ∧
    ((Term.ext_strings t).map ExtString.index).Pairwise (· < ·) ∧
    (t.count_ext_str = 0 → Term.ext_strings t = []) := by
  have hb : (Term.ext_booleans t).map ExtBoolean.index = rustRange 0 t.count_ext_bool := by
    simp [Term.ext_booleans, List.map_map, Function.comp_def]
  have hn : (Term.ext_numerics t).map ExtNumeric.index = rustRange 0 t.count_ext_num := by
    simp [Term.ext_numerics, List.map_map, Function.comp_def]
  have hs : (Term.ext_strings t).map ExtString.index = rustRange 0 t.count_ext_str := by
    simp [Term.ext_strings, List.map_map, Function.comp_def]
  refine ⟨hb, ?_, ?_, ?_, ?_, hn, ?_, ?_, ?_, ?_, hs, ?_, ?_, ?_, ?_⟩
  · simp [Term.ext_booleans, rustRange]
  · intro i
    rw [hb, mem_rustRange]
    omega
  · rw [hb]
    exact pairwise_rustRange _ _
  · intro h
    simp [Term.ext_booleans, rustRange, h]
  · simp [Term.ext_numerics, rustRange]
  · intro i
    rw [hn, mem_rustRange]
    omega
  · rw [hn]
    exact pairwise_rustRange _ _
  · intro h
    simp [Term.ext_numerics, rustRange, h]
  · simp [Term.ext_strings, rustRange]
  · intro i
    rw [hs, mem_rustRange]
    omega
  · rw [hs]
    exact pairwise_rustRange _ _
  · intro h
    simp [Term.ext_strings, rustRange, h]

/-- Witness for C6: a handle with zero extended strings yields the empty
sequence, one with two extended booleans yields length two. -/
theorem c6_ext_enumeration_witness :
    (sampleTerm.count_ext_str = 0 ∧ Term.ext_strings sampleTerm = []) ∧
    (Term.ext_booleans sampleTerm).length = sampleTerm.count_ext_bool :=
  ⟨⟨rfl, (c6_ext_enumeration sampleTerm).2.2.2.2.2.2.2.2.2.2.2.2.2.2 rfl⟩,
   (c6_ext_enumeration sampleTerm).2.1⟩

/-- A constant static name table used to instantiate the display theorem
at a concrete input. -/
def tblA : Nat → Option (List Nat) := fun _ => some [97]

/-- C8: every accessor displays as its name, a colon and a space, then its
value; String and ExtString display the literal `NULL` when the value is
absent, and the escaped value when present. -/
theorem c8_display_form (tbl : Nat → Option (List Nat)) (nm : List Nat) :
    (∀ s : StringCap, tbl s.string = some nm →
        (StringCap.value s = none →
            StringCap.display tbl s = some (nm ++ colonSpace ++ nullBytes)) ∧
        (∀ v, StringCap.value s = some v →
            StringCap.display tbl s = some (nm ++ colonSpace ++ escapeBody v))) ∧
    (∀ b : Boolean, tbl b.boolean = some nm →
        Boolean.display tbl b =
          some (nm ++ colonSpace ++ boolBytes (Boolean.supported b))) ∧
    (∀ n : Numeric, tbl n.numeric = some nm →
        Numeric.display tbl n =
          some (nm ++ colonSpace ++ intBytes (Numeric.value n))) ∧
    (∀ e : ExtString, ExtString.name e = some nm →
        (ExtString.value e = none →
            ExtString.display e = some (nm ++ colonSpace ++ nullBytes)) ∧
        (∀ v, ExtString.value e = some v →
            ExtString.display e = some (nm ++ colonSpace ++ escapeBody v))) ∧
    (∀ e : ExtBoolean, ExtBoolean.name e = some nm →
        ExtBoolean.display e =
          some (nm ++ colonSpace ++ boolBytes (ExtBoolean.supported e))) ∧
    (∀ e : ExtNumeric, ExtNumeric.name e = some nm →
        ExtNumeric.display e =
          some (nm ++ colonSpace ++ intBytes (ExtNumeric.value e))) := by
  refine ⟨?_, ?_, ?_, ?_, ?_, ?_⟩
  · intro s hs
    constructor
    · intro hv
      simp [StringCap.display, StringCap.name, hs, StringCap.escaped_value,
        escape_string, hv]
    · intro v hv
      simp [StringCap.display, StringCap.name, hs, StringCap.escaped_value,
        escape_string, hv]
  · intro b hb
    simp [Boolean.display, Boolean.name, hb]
  · intro n hn
    simp [Numeric.display, Numeric.name, hn]
  · intro e he
    constructor
    · intro hv
      simp [ExtString.display, he, ExtString.escaped_value, escape_string, hv]
    · intro v hv
      simp [ExtString.display, he, ExtString.escaped_value, escape_string, hv]
  · intro e he
    simp [ExtBoolean.display, he]
  · intro e he
    simp [ExtNumeric.display, he]

/-- Witness for C8: a boolean, a numeric, a present string and an absent
string under a constant name table. -/
theorem c8_display_form_witness :
    (tblA 0 = some [97] ∧
      Boolean.display tblA ⟨0, sampleTerm⟩ =
        some ([97] ++ colonSpace ++ boolBytes (Boolean.supported ⟨0, sampleTerm⟩))) ∧
    (StringCap.value ⟨0, dummyTerm⟩ = none ∧
      StringCap.display tblA ⟨0, dummyTerm⟩ =
        some ([97] ++ colonSpace ++ nullBytes)) ∧
    (StringCap.value ⟨0, sampleTerm⟩ = some [65] ∧
      StringCap.display tblA ⟨0, sampleTerm⟩ =
        some ([97] ++ colonSpace ++ escapeBody [65])) :=
  ⟨⟨rfl, (c8_display_form tblA [97]).2.1 ⟨0, sampleTerm⟩ rfl⟩,
   ⟨rfl, ((c8_display_form tblA [97]).1 ⟨0, dummyTerm⟩ rfl).1 rfl⟩,
   ⟨rfl, ((c8_display_form tblA [97]).1 ⟨0, sampleTerm⟩ rfl).2 [65] rfl⟩⟩

end Unibilium
